import Mathlib

/-!
Verification development for the per-user interaction gate of the
`tg-bot-kbju` repository: the sliding-window rate limiter, the per-user
concurrency guard (`app/services/rate_limit.py`), and the edit-session
lifecycle with its background timeout task
(`app/bot/handlers/meal.py`).  Timestamps are modelled as integers
(the source uses `time.monotonic()` / UTC epoch seconds), identifiers
and tokens as naturals, and each stateful component as explicit state
passing over a record of its mutable fields.
-/

namespace TgBot

/-! ### RateLimiter (`app/services/rate_limit.py`, class `RateLimiter`) -/

/-- State of `RateLimiter`: the configured `max_per_minute` quota and the
per-user list `self._windows` of admitted timestamps. -/
structure RateLimiter where
  maxPerMinute : Nat
  windows : Nat → List Int

/-- The lazy prune on every `check()` call: keep timestamps strictly newer
than `now - 60.0` (`[t for t in window if t > cutoff]`). -/
def pruneWindow (now : Int) (w : List Int) : List Int :=
  w.filter (fun t => decide (now - 60 < t))

/-- Pointwise update of the per-user window map. -/
def setWindow (f : Nat → List Int) (u : Nat) (w : List Int) : Nat → List Int :=
  fun v => if v = u then w else f v

/-- `RateLimiter.check`: prune the caller's window, store the pruned list,
reject when the pruned count has reached the quota, otherwise append `now`
and admit. -/
def RateLimiter.check (rl : RateLimiter) (u : Nat) (now : Int) :
    Bool × RateLimiter :=
  let w := pruneWindow now (rl.windows u)
  if rl.maxPerMinute ≤ w.length then
    (false, { rl with windows := setWindow rl.windows u w })
  else
    (true, { rl with windows := setWindow rl.windows u (w ++ [now]) })

/-- Run a sequence of `check` calls for one user at the given times,
collecting the verdicts and the final limiter state. -/
def runChecks (rl : RateLimiter) (u : Nat) : List Int → List Bool × RateLimiter
  | [] => ([], rl)
  | t :: ts =>
    let r := rl.check u t
    let rest := runChecks r.2 u ts
    (r.1 :: rest.1, rest.2)

/-- Number of admissions among `n` consecutive `check` calls for user `u`,
all issued at the same instant `t`. -/
def admitCountN (rl : RateLimiter) (u : Nat) (t : Int) : Nat → Nat
  | 0 => 0
  | Nat.succ n =>
    (if (rl.check u t).1 then 1 else 0) + admitCountN (rl.check u t).2 u t n

lemma setWindow_same (f : Nat → List Int) (u : Nat) (w : List Int) :
    setWindow f u w u = w := by
  simp [setWindow]

lemma setWindow_other (f : Nat → List Int) (u v : Nat) (w : List Int)
    (h : v ≠ u) : setWindow f u w v = f v := by
  simp [setWindow, h]

lemma pruneWindow_idem (now : Int) (w : List Int) :
    pruneWindow now (pruneWindow now w) = pruneWindow now w := by
  simp [pruneWindow, List.filter_filter]

lemma pruneWindow_append_now (now : Int) (w : List Int) :
    pruneWindow now (pruneWindow now w ++ [now]) =
      pruneWindow now w ++ [now] := by
  simp [pruneWindow, List.filter_append, List.filter_filter]

lemma pruneWindow_eq_self (now : Int) (w : List Int)
    (h : ∀ x ∈ w, now - 60 < x) : pruneWindow now w = w := by
  rw [pruneWindow, List.filter_eq_self]
  intro a ha
  simpa using h a ha

lemma check_reject (rl : RateLimiter) (u : Nat) (now : Int)
    (h : rl.maxPerMinute ≤ (pruneWindow now (rl.windows u)).length) :
    rl.check u now =
      (false, { rl with windows := setWindow rl.windows u (pruneWindow now (rl.windows u)) }) := by
  rw [RateLimiter.check]
  simp only [if_pos h]

lemma check_admits (rl : RateLimiter) (u : Nat) (now : Int)
    (h : (pruneWindow now (rl.windows u)).length < rl.maxPerMinute) :
    rl.check u now =
      (true, { rl with windows := setWindow rl.windows u (pruneWindow now (rl.windows u) ++ [now]) }) := by
  rw [RateLimiter.check]
  simp only [if_neg (by omega : ¬ rl.maxPerMinute ≤ (pruneWindow now (rl.windows u)).length)]

/-- Exactly the freed capacity is admitted when hammering `check` at one
instant: the count of admissions in `n` calls equals
`min n (quota - pruned length)`. -/
lemma admitCountN_eq (u : Nat) (t : Int) :
    ∀ (n : Nat) (rl : RateLimiter),
      admitCountN rl u t n =
        min n (rl.maxPerMinute - (pruneWindow t (rl.windows u)).length) := by
  intro n
  induction n with
  | zero => intro rl; simp [admitCountN]
  | succ n ih =>
    intro rl
    by_cases h : rl.maxPerMinute ≤ (pruneWindow t (rl.windows u)).length
    · rw [admitCountN, check_reject rl u t h]
      have hrec := ih { rl with windows := setWindow rl.windows u (pruneWindow t (rl.windows u)) }
      simp only [setWindow_same] at hrec
      rw [pruneWindow_idem] at hrec
      simp only [hrec]
      simp
      omega
    · rw [admitCountN, check_admits rl u t (by omega)]
      have hrec := ih { rl with windows := setWindow rl.windows u (pruneWindow t (rl.windows u) ++ [t]) }
      simp only [setWindow_same] at hrec
      rw [pruneWindow_append_now] at hrec
      simp only [hrec]
      simp
      omega

/-- A run of admissible calls: starting from a window that survives every
upcoming prune, with enough remaining capacity, every call is admitted and
the final window is the old one extended by the call times. -/
lemma runChecks_all (u : Nat) :
    ∀ (ts : List Int) (rl : RateLimiter),
      (rl.windows u).length + ts.length ≤ rl.maxPerMinute →
      (∀ x ∈ rl.windows u, ∀ s ∈ ts, s - 60 < x) →
      List.Pairwise (fun a b => b - 60 < a) ts →
      (∀ b ∈ (runChecks rl u ts).1, b = true) ∧
      ((runChecks rl u ts).2).windows u = rl.windows u ++ ts ∧
      ((runChecks rl u ts).2).maxPerMinute = rl.maxPerMinute ∧
      (∀ v, v ≠ u → ((runChecks rl u ts).2).windows v = rl.windows v) := by
  intro ts
  induction ts with
  | nil =>
    intro rl _ _ _
    refine ⟨by intro b hb; simp [runChecks] at hb, by simp [runChecks], rfl, ?_⟩
    intro v _; rfl
  | cons s ts ih =>
    intro rl hlen hsurv hpair
    have hprune : pruneWindow s (rl.windows u) = rl.windows u :=
      pruneWindow_eq_self s _ (fun x hx => hsurv x hx s (by simp))
    have hlen' : (rl.windows u).length + (ts.length + 1) ≤ rl.maxPerMinute := by
      simpa using hlen
    have hlt : (pruneWindow s (rl.windows u)).length < rl.maxPerMinute := by
      rw [hprune]; omega
    have hcheck : rl.check u s =
        (true, { rl with windows := setWindow rl.windows u (rl.windows u ++ [s]) }) := by
      rw [check_admits rl u s hlt, hprune]
    set rl' : RateLimiter :=
      { rl with windows := setWindow rl.windows u (rl.windows u ++ [s]) } with hrl'
    have hwin' : rl'.windows u = rl.windows u ++ [s] := setWindow_same _ _ _
    have hrec := ih rl' (by rw [hwin']; simp at hlen ⊢; omega)
      (by
        intro x hx s' hs'
        rw [hwin'] at hx
        rcases List.mem_append.mp hx with hx | hx
        · exact hsurv x hx s' (by simp [hs'])
        · have : x = s := by simpa using hx
          subst this
          exact (List.pairwise_cons.mp hpair).1 s' hs')
      (List.pairwise_cons.mp hpair).2
    refine ⟨?_, ?_, ?_, ?_⟩
    · intro b hb
      simp only [runChecks, hcheck] at hb
      rcases List.mem_cons.mp hb with hb | hb
      · exact hb
      · exact hrec.1 b hb
    · simp only [runChecks, hcheck]
      rw [hrec.2.1, hwin']
      simp
    · simp only [runChecks, hcheck]
      exact hrec.2.2.1
    · intro v hv
      simp only [runChecks, hcheck]
      rw [hrec.2.2.2 v hv]
      exact setWindow_other _ _ _ _ hv

/-! ### ConcurrencyGuard (`app/services/rate_limit.py`, class `ConcurrencyGuard`) -/

/-- `ConcurrencyGuard.acquire`: under the internal lock, fail if the user
already holds a slot, otherwise add the user to `self._active`. -/
def acquire (active : List Nat) (u : Nat) : Bool × List Nat :=
  if u ∈ active then (false, active) else (true, u :: active)

/-- `ConcurrencyGuard.release`: `self._active.discard(tg_user_id)`. -/
def release (active : List Nat) (u : Nat) : List Nat :=
  active.filter (fun v => decide (v ≠ u))

/-- One guard operation: an acquire or a release for some user. -/
inductive GuardOp where
  | acq (v : Nat)
  | rel (v : Nat)
  deriving DecidableEq

def applyGuardOp (s : List Nat) : GuardOp → List Nat
  | GuardOp.acq v => (acquire s v).2
  | GuardOp.rel v => release s v

def runGuard (s : List Nat) (ops : List GuardOp) : List Nat :=
  ops.foldl applyGuardOp s

lemma mem_release_iff (s : List Nat) (u v : Nat) :
    v ∈ release s u ↔ v ∈ s ∧ v ≠ u := by
  simp [release]

lemma acquire_false_of_mem {s : List Nat} {u : Nat} (h : u ∈ s) :
    (acquire s u).1 = false := by
  simp [acquire, h]

lemma guardOp_keeps_mem (s : List Nat) (u : Nat) (op : GuardOp)
    (hmem : u ∈ s) (hop : op ≠ GuardOp.rel u) : u ∈ applyGuardOp s op := by
  cases op with
  | acq v =>
    simp only [applyGuardOp, acquire]
    by_cases h : v ∈ s
    · simpa [h]
    · simp [h, hmem]
  | rel v =>
    have hv : v ≠ u := by
      intro h; exact hop (by rw [h])
    simp only [applyGuardOp]
    exact (mem_release_iff s v u).mpr ⟨hmem, fun h => hv h.symm⟩

lemma runGuard_keeps_mem (u : Nat) :
    ∀ (ops : List GuardOp) (s : List Nat),
      u ∈ s → (∀ op ∈ ops, op ≠ GuardOp.rel u) → u ∈ runGuard s ops := by
  intro ops
  induction ops with
  | nil => intro s h _; simpa [runGuard] using h
  | cons op ops ih =>
    intro s h hops
    have h1 : u ∈ applyGuardOp s op :=
      guardOp_keeps_mem s u op h (hops op (by simp))
    simpa [runGuard] using ih (applyGuardOp s op) h1 (fun o ho => hops o (by simp [ho]))

/-- The scoped acquisition of `_ConcurrencyContext` (`__aenter__` /
`__aexit__`) as used by `_analyze_with_typing`: acquire on entry; when not
acquired, skip the body and report busy (`none`); when acquired, run the
body and release on the way out whether the body returned or raised, then
let a raised error propagate. -/
def withSlot {ε α : Type} (active : List Nat) (u : Nat)
    (body : Except ε α) : Except ε (Option α) × List Nat :=
  match acquire active u with
  | (false, s) => (Except.ok none, s)
  | (true, s) =>
    match body with
    | Except.ok a => (Except.ok (some a), release s u)
    | Except.error e => (Except.error e, release s u)

/-! ### Edit-session lifecycle (`app/bot/handlers/meal.py`)

The per-user FSM data set by `on_saved_edit` is the `EditSession`; the
module-level `_timeout_tasks` dict is the timer registry; `asyncio.Task`
objects are modelled by `TimerTask` records addressed by a fresh id, with
the cancellation flag that `task.cancel()` sets and the post-wake identity
check `_timeout_tasks.get(user_id) is not asyncio.current_task()`.
Transport effects (`bot.edit_message_text`) are logged when they succeed;
a transport failure is an exception the source catches, so a failed edit
leaves the log unchanged and the operation continues. -/

/-- `EDIT_TIMEOUT` from `meal.py`: 300 seconds. -/
def EDIT_TIMEOUT : Int := 300

/-- `edit_window_hours` default from `meal.py`: 48 hours. -/
def editWindowHours : Int := 48

/-- The FSM data contract written by `on_saved_edit`
(`edit_meal_id`, `prompt_chat_id`, `prompt_message_id`, `session_token`,
`deadline`). -/
structure EditSession where
  editMealId : Nat
  promptChatId : Int
  promptMessageId : Nat
  sessionToken : Nat
  deadline : Int
  deriving DecidableEq

/-- An `asyncio.Task` running `_timeout_coro`, with the arguments the
coroutine captured and the flags of its lifecycle. -/
structure TimerTask where
  taskId : Nat
  user : Nat
  chatId : Int
  msgId : Nat
  token : Nat
  cancelRequested : Bool
  taskDone : Bool
  deriving DecidableEq

/-- Terminal statuses a prompt message can be rewritten to. -/
inductive EditStatus where
  | replaced
  | expired
  | resolvedOk
  | deletedOk
  deriving DecidableEq

/-- A successful `bot.edit_message_text` call: target message, new status,
and whether interactive controls (`reply_markup`) remain attached. -/
structure MsgEdit where
  chatId : Int
  msgId : Nat
  status : EditStatus
  controls : Bool
  deriving DecidableEq

/-- The shared mutable state of the edit-session core: the per-user FSM
session data, the `_timeout_tasks` registry, the task table, the logs of
transport edits and repository soft-deletes, and a fresh-id counter
standing in for `uuid4` / task-object identity. -/
structure World where
  sessions : Nat → Option EditSession
  timers : Nat → Option Nat
  tasks : Nat → Option TimerTask
  edits : List MsgEdit
  softDeletes : List (Nat × Nat)
  nextId : Nat

/-- `bot.edit_message_text` wrapped in the source's try/except: on
success the edit is recorded, on transport failure the exception is
swallowed and the log is unchanged. -/
def tryEditMessage (log : List MsgEdit) (e : MsgEdit) (ok : Bool) : List MsgEdit :=
  if ok then log ++ [e] else log

/-- `cancel_timeout_task`: pop the user's entry from `_timeout_tasks` and,
if a task was registered, request its cancellation. -/
def cancelTimeoutTask (w : World) (u : Nat) : World :=
  match w.timers u with
  | none => w
  | some tid =>
    { w with
      timers := fun v => if v = u then none else w.timers v,
      tasks := fun i =>
        if i = tid then (w.tasks i).map (fun t => { t with cancelRequested := true })
        else w.tasks i }

/-- `start_timeout_task`: cancel any previous task for the user, then
create a fresh `_timeout_coro` task and register it in `_timeout_tasks`. -/
def startTimeoutTask (w : World) (u : Nat) (chatId : Int) (msgId : Nat)
    (token : Nat) : World :=
  let w1 := cancelTimeoutTask w u
  let tid := w1.nextId
  { w1 with
    nextId := w1.nextId + 1,
    tasks := fun i =>
      if i = tid then
        some { taskId := tid, user := u, chatId := chatId, msgId := msgId,
               token := token, cancelRequested := false, taskDone := false }
      else w1.tasks i,
    timers := fun v => if v = u then some tid else w1.timers v }

/-- Mark a task's coroutine as finished (it returned). -/
def markDone (w : World) (tid : Nat) : World :=
  { w with
    tasks := fun i =>
      if i = tid then (w.tasks i).map (fun t => { t with taskDone := true })
      else w.tasks i }

/-- `_timeout_coro` resuming after its sleep.  A cancellation requested
while sleeping surfaces as `asyncio.CancelledError` at the `sleep` and the
coroutine returns at once.  Otherwise it checks that it is still the
registered task for its user, exits silently when not, and only then pops
the registry entry and attempts the expiry rewrite (failures caught). -/
def timerWake (w : World) (tid : Nat) (editOk : Bool) : World :=
  match w.tasks tid with
  | none => w
  | some task =>
    if task.cancelRequested then markDone w tid
    else if w.timers task.user ≠ some tid then markDone w tid
    else
      let w1 := { w with timers := fun v => if v = task.user then none else w.timers v }
      let w2 := { w1 with
        edits := tryEditMessage w1.edits
          { chatId := task.chatId, msgId := task.msgId,
            status := EditStatus.expired, controls := false } editOk }
      markDone w2 tid

/-- `finalize_edit_session`: cancel the timeout task and clear the FSM
state. -/
def finalizeEditSession (w : World) (u : Nat) : World :=
  let w1 := cancelTimeoutTask w u
  { w1 with sessions := fun v => if v = u then none else w1.sessions v }

/-- `on_saved_edit` after its guards (valid meal id, meal found, edit
window open) have passed: rewrite any previous prompt to the replaced
status (failure swallowed), cancel the previous timeout task, send the new
prompt (its message reference `newChat`/`newMsg` is the transport's
reply), install the FSM data with a freshly generated session token and
`deadline = now + EDIT_TIMEOUT`, and start the new timeout task.
`supersedePrompt` is the first step: when a previous session exists,
rewrite its prompt message to the replaced status with no controls,
swallowing a transport failure (`except TelegramBadRequest: pass`). -/
def supersedePrompt (w : World) (u : Nat) (oldEditOk : Bool) : World :=
  match w.sessions u with
  | some old =>
    { w with
      edits := tryEditMessage w.edits
        { chatId := old.promptChatId, msgId := old.promptMessageId,
          status := EditStatus.replaced, controls := false } oldEditOk }
  | none => w

/-- The remainder of `on_saved_edit`: supersede the previous prompt,
cancel the previous timeout task, install the fresh FSM data, start the
new timeout task. -/
def onSavedEdit (w : World) (u : Nat) (mealId : Nat) (now : Int)
    (newChat : Int) (newMsg : Nat) (oldEditOk : Bool) : World :=
  let w1 := supersedePrompt w u oldEditOk
  let w2 := cancelTimeoutTask w1 u
  let token := w2.nextId
  let w3 := { w2 with
    nextId := w2.nextId + 1,
    sessions := fun v =>
      if v = u then
        some { editMealId := mealId, promptChatId := newChat,
               promptMessageId := newMsg, sessionToken := token,
               deadline := now + EDIT_TIMEOUT }
      else w2.sessions v }
  startTimeoutTask w3 u newChat newMsg token

/-- Action kinds of the spec's `act(u, token, kind)`. -/
inductive ActKind where
  | resolve
  | delete
  deriving DecidableEq

/-- Result of `act`. -/
inductive ActResult where
  | ok
  | stale
  deriving DecidableEq

/-- Modelled from the spec: the callback handlers acting on an edit
session (`on_edit_ok` / `on_edit_delete`) are imported by the
repository's tests from `app.bot.handlers.meal` but are not present under
`src/`; this follows spec §4.3 "Act on session" — reject as stale when no
session is registered for the user or the registered session's token does
not equal the supplied token; on success cancel the timer, remove the
session, for `delete` invoke the soft-delete collaborator, then rewrite
the prompt to a terminal status with no controls. -/
def actOnSession (w : World) (u : Nat) (token : Nat) (kind : ActKind)
    (editOk : Bool) : ActResult × World :=
  match w.sessions u with
  | none => (ActResult.stale, w)
  | some s =>
    if s.sessionToken ≠ token then (ActResult.stale, w)
    else
      let w1 := cancelTimeoutTask w u
      let w2 := { w1 with sessions := fun v => if v = u then none else w1.sessions v }
      match kind with
      | ActKind.resolve =>
        (ActResult.ok, { w2 with
          edits := tryEditMessage w2.edits
            { chatId := s.promptChatId, msgId := s.promptMessageId,
              status := EditStatus.resolvedOk, controls := false } editOk })
      | ActKind.delete =>
        let w3 := { w2 with softDeletes := w2.softDeletes ++ [(s.editMealId, u)] }
        (ActResult.ok, { w3 with
          edits := tryEditMessage w3.edits
            { chatId := s.promptChatId, msgId := s.promptMessageId,
              status := EditStatus.deletedOk, controls := false } editOk })

/-- Outcome of `_handle_edit_text`. -/
inductive EditTextOutcome where
  | noText
  | mealNotFound
  | windowExpired
  | precheckFailed
  | rateLimited
  | analyzed
  deriving DecidableEq

/-- The tail of `_handle_edit_text` after the session is finalized:
precheck the text, then the rate limit (`_check_limits`), then hand over
to the analysis pipeline. -/
def handleEditTextRest (w : World) (rl : RateLimiter) (u : Nat) (now : Int)
    (precheckOk : Bool) : EditTextOutcome × World × RateLimiter :=
  if precheckOk = false then (EditTextOutcome.precheckFailed, w, rl)
  else
    let r := rl.check u now
    if r.1 = false then (EditTextOutcome.rateLimited, w, r.2)
    else (EditTextOutcome.analyzed, w, r.2)

/-- `_handle_edit_text`: bail out on an empty text, read the FSM data,
finalize the edit session (cancel timer + clear state), then re-check the
edit window against the meal record, precheck the correction text, and
check the rate limit; only then run the analysis.  `mealFound` and
`mealAgeSeconds` stand for the persistence collaborator's answer, and
`precheckOk` for the precheck service's verdict. -/
def handleEditText (w : World) (rl : RateLimiter) (u : Nat) (now : Int)
    (hasText : Bool) (mealFound : Bool) (mealAgeSeconds : Int)
    (precheckOk : Bool) : EditTextOutcome × World × RateLimiter :=
  if hasText = false then (EditTextOutcome.noText, w, rl)
  else
    let mealInSession := (w.sessions u).isSome
    let w1 := finalizeEditSession w u
    if mealInSession then
      if mealFound = false then (EditTextOutcome.mealNotFound, w1, rl)
      else if decide (editWindowHours * 3600 < mealAgeSeconds) then
        (EditTextOutcome.windowExpired, w1, rl)
      else handleEditTextRest w1 rl u now precheckOk
    else handleEditTextRest w1 rl u now precheckOk

/-- The operations that mutate the edit-session world, as dispatched by
the bot's handlers and timers. -/
inductive Op where
  | savedEdit (u mealId : Nat) (now : Int) (newChat : Int) (newMsg : Nat)
      (oldEditOk : Bool)
  | act (u token : Nat) (kind : ActKind) (editOk : Bool)
  | finalizeOp (u : Nat)
  | wake (tid : Nat) (editOk : Bool)
  | editText (rl : RateLimiter) (u : Nat) (now : Int) (hasText mealFound : Bool)
      (mealAgeSeconds : Int) (precheckOk : Bool)

def applyOp (w : World) : Op → World
  | Op.savedEdit u mealId now newChat newMsg oldEditOk =>
    onSavedEdit w u mealId now newChat newMsg oldEditOk
  | Op.act u token kind editOk => (actOnSession w u token kind editOk).2
  | Op.finalizeOp u => finalizeEditSession w u
  | Op.wake tid editOk => timerWake w tid editOk
  | Op.editText rl u now hasText mealFound mealAgeSeconds precheckOk =>
    (handleEditText w rl u now hasText mealFound mealAgeSeconds precheckOk).2.1

def runOps (w : World) : List Op → World
  | [] => w
  | op :: ops => runOps (applyOp w op) ops

/-- Well-formedness of a world: registered timers point to live tasks of
the right user, and every id or token already handed out is below the
fresh-id counter. -/
structure WF (w : World) : Prop where
  timerTask : ∀ u tid, w.timers u = some tid →
    ∃ task, w.tasks tid = some task ∧ task.user = u
  timerLt : ∀ u tid, w.timers u = some tid → tid < w.nextId
  taskLt : ∀ tid task, w.tasks tid = some task → tid < w.nextId
  tokenLt : ∀ u s, w.sessions u = some s → s.sessionToken < w.nextId

/-- Task `tid` exists and has cancellation requested. -/
def cancelledAt (w : World) (tid : Nat) : Prop :=
  ∃ task, w.tasks tid = some task ∧ task.cancelRequested = true

lemma cancelTimeoutTask_nextId (w : World) (u : Nat) :
    (cancelTimeoutTask w u).nextId = w.nextId := by
  cases h : w.timers u <;> simp [cancelTimeoutTask, h]

lemma cancelTimeoutTask_sessions (w : World) (u : Nat) :
    (cancelTimeoutTask w u).sessions = w.sessions := by
  cases h : w.timers u <;> simp [cancelTimeoutTask, h]

lemma cancelTimeoutTask_edits (w : World) (u : Nat) :
    (cancelTimeoutTask w u).edits = w.edits := by
  cases h : w.timers u <;> simp [cancelTimeoutTask, h]

lemma cancelTimeoutTask_softDeletes (w : World) (u : Nat) :
    (cancelTimeoutTask w u).softDeletes = w.softDeletes := by
  cases h : w.timers u <;> simp [cancelTimeoutTask, h]

lemma cancelTimeoutTask_timers_self (w : World) (u : Nat) :
    (cancelTimeoutTask w u).timers u = none := by
  cases h : w.timers u <;> simp [cancelTimeoutTask, h]

lemma cancelTimeoutTask_timers_other (w : World) (u v : Nat) (h : v ≠ u) :
    (cancelTimeoutTask w u).timers v = w.timers v := by
  cases hu : w.timers u <;> simp [cancelTimeoutTask, hu, h]

lemma cancelTimeoutTask_sets_cancel (w : World) (u tid : Nat) (task : TimerTask)
    (hreg : w.timers u = some tid) (htask : w.tasks tid = some task) :
    (cancelTimeoutTask w u).tasks tid =
      some { task with cancelRequested := true } := by
  simp [cancelTimeoutTask, hreg, htask]

lemma cancelTimeoutTask_keeps_cancel (w : World) (u tid : Nat)
    (h : cancelledAt w tid) : cancelledAt (cancelTimeoutTask w u) tid := by
  obtain ⟨task, htask, hc⟩ := h
  cases hu : w.timers u with
  | none => exact ⟨task, by simp [cancelTimeoutTask, hu, htask], hc⟩
  | some tid2 =>
    by_cases he : tid = tid2
    · subst he
      exact ⟨{ task with cancelRequested := true },
        by simp [cancelTimeoutTask, hu, htask], rfl⟩
    · exact ⟨task, by simp [cancelTimeoutTask, hu, he, htask], hc⟩

lemma supersedePrompt_sessions (w : World) (u : Nat) (oldEditOk : Bool) :
    (supersedePrompt w u oldEditOk).sessions = w.sessions := by
  cases h : w.sessions u <;> simp [supersedePrompt, h]

lemma supersedePrompt_timers (w : World) (u : Nat) (oldEditOk : Bool) :
    (supersedePrompt w u oldEditOk).timers = w.timers := by
  cases h : w.sessions u <;> simp [supersedePrompt, h]

lemma supersedePrompt_tasks (w : World) (u : Nat) (oldEditOk : Bool) :
    (supersedePrompt w u oldEditOk).tasks = w.tasks := by
  cases h : w.sessions u <;> simp [supersedePrompt, h]

lemma supersedePrompt_nextId (w : World) (u : Nat) (oldEditOk : Bool) :
    (supersedePrompt w u oldEditOk).nextId = w.nextId := by
  cases h : w.sessions u <;> simp [supersedePrompt, h]

lemma supersedePrompt_softDeletes (w : World) (u : Nat) (oldEditOk : Bool) :
    (supersedePrompt w u oldEditOk).softDeletes = w.softDeletes := by
  cases h : w.sessions u <;> simp [supersedePrompt, h]

lemma supersedePrompt_edits_some (w : World) (u : Nat) (old : EditSession)
    (hs : w.sessions u = some old) :
    (supersedePrompt w u true).edits =
      w.edits ++ [{ chatId := old.promptChatId, msgId := old.promptMessageId,
                    status := EditStatus.replaced, controls := false }] := by
  simp [supersedePrompt, hs, tryEditMessage]

lemma supersedePrompt_edits_none (w : World) (u : Nat) (oldEditOk : Bool)
    (hs : w.sessions u = none) :
    (supersedePrompt w u oldEditOk).edits = w.edits := by
  simp [supersedePrompt, hs]

lemma supersedePrompt_keeps_cancel (w : World) (u : Nat) (oldEditOk : Bool)
    (tid : Nat) (h : cancelledAt w tid) :
    cancelledAt (supersedePrompt w u oldEditOk) tid := by
  obtain ⟨task, htask, hc⟩ := h
  exact ⟨task, by rw [supersedePrompt_tasks]; exact htask, hc⟩

lemma startTimeoutTask_nextId (w : World) (u : Nat) (c : Int) (m tk : Nat) :
    (startTimeoutTask w u c m tk).nextId = w.nextId + 1 := by
  simp [startTimeoutTask, cancelTimeoutTask_nextId]

lemma startTimeoutTask_sessions (w : World) (u : Nat) (c : Int) (m tk : Nat) :
    (startTimeoutTask w u c m tk).sessions = w.sessions := by
  simp [startTimeoutTask, cancelTimeoutTask_sessions]

lemma startTimeoutTask_edits (w : World) (u : Nat) (c : Int) (m tk : Nat) :
    (startTimeoutTask w u c m tk).edits = w.edits := by
  simp [startTimeoutTask, cancelTimeoutTask_edits]

lemma startTimeoutTask_softDeletes (w : World) (u : Nat) (c : Int) (m tk : Nat) :
    (startTimeoutTask w u c m tk).softDeletes = w.softDeletes := by
  simp [startTimeoutTask, cancelTimeoutTask_softDeletes]

lemma startTimeoutTask_timers_self (w : World) (u : Nat) (c : Int) (m tk : Nat) :
    (startTimeoutTask w u c m tk).timers u = some w.nextId := by
  simp [startTimeoutTask, cancelTimeoutTask_nextId]

lemma startTimeoutTask_tasks_new (w : World) (u : Nat) (c : Int) (m tk : Nat) :
    (startTimeoutTask w u c m tk).tasks w.nextId =
      some { taskId := w.nextId, user := u, chatId := c, msgId := m,
             token := tk, cancelRequested := false, taskDone := false } := by
  simp [startTimeoutTask, cancelTimeoutTask_nextId]

lemma startTimeoutTask_tasks_at (w : World) (u : Nat) (c : Int) (m tk tid : Nat)
    (h : tid = w.nextId) :
    (startTimeoutTask w u c m tk).tasks tid =
      some { taskId := tid, user := u, chatId := c, msgId := m,
             token := tk, cancelRequested := false, taskDone := false } := by
  subst h
  exact startTimeoutTask_tasks_new w u c m tk

lemma handleEditTextRest_world (w : World) (rl : RateLimiter) (u : Nat)
    (now : Int) (precheckOk : Bool) :
    (handleEditTextRest w rl u now precheckOk).2.1 = w := by
  by_cases hp : precheckOk = false
  · simp [handleEditTextRest, hp]
  · by_cases hr : (rl.check u now).1 = false <;>
      simp [handleEditTextRest, hp, hr]

lemma startTimeoutTask_keeps_cancel (w : World) (u : Nat) (c : Int) (m tk tid : Nat)
    (hlt : tid < w.nextId) (h : cancelledAt w tid) :
    cancelledAt (startTimeoutTask w u c m tk) tid := by
  obtain ⟨task, htask, hc⟩ := cancelTimeoutTask_keeps_cancel w u tid h
  refine ⟨task, ?_, hc⟩
  have hne : tid ≠ (cancelTimeoutTask w u).nextId := by
    rw [cancelTimeoutTask_nextId]; omega
  simp [startTimeoutTask, hne, htask]

lemma markDone_keeps_cancel (w : World) (tid2 tid : Nat)
    (h : cancelledAt w tid) : cancelledAt (markDone w tid2) tid := by
  obtain ⟨task, htask, hc⟩ := h
  by_cases he : tid = tid2
  · subst he
    exact ⟨{ task with taskDone := true }, by simp [markDone, htask], hc⟩
  · exact ⟨task, by simp [markDone, he, htask], hc⟩

lemma markDone_timers (w : World) (tid : Nat) :
    (markDone w tid).timers = w.timers := rfl

lemma markDone_sessions (w : World) (tid : Nat) :
    (markDone w tid).sessions = w.sessions := rfl

lemma markDone_edits (w : World) (tid : Nat) :
    (markDone w tid).edits = w.edits := rfl

lemma markDone_softDeletes (w : World) (tid : Nat) :
    (markDone w tid).softDeletes = w.softDeletes := rfl

lemma markDone_nextId (w : World) (tid : Nat) :
    (markDone w tid).nextId = w.nextId := rfl

/-- A task whose cancellation has been requested performs no expiry
mutation when its coroutine wakes: the transport log, the timer registry,
the sessions and the soft-delete log are untouched. -/
lemma timerWake_cancelled_noop (w : World) (tid : Nat) (editOk : Bool)
    (h : cancelledAt w tid) :
    (timerWake w tid editOk).edits = w.edits ∧
    (timerWake w tid editOk).timers = w.timers ∧
    (timerWake w tid editOk).sessions = w.sessions ∧
    (timerWake w tid editOk).softDeletes = w.softDeletes := by
  obtain ⟨task, htask, hc⟩ := h
  simp [timerWake, htask, hc, markDone_edits, markDone_timers, markDone_sessions,
    markDone_softDeletes]

/-- A task that is no longer the registered one for its user performs no
mutation when its coroutine wakes (the post-wake identity check fails). -/
lemma timerWake_stale_noop (w : World) (tid : Nat) (editOk : Bool)
    (task : TimerTask) (htask : w.tasks tid = some task)
    (h : w.timers task.user ≠ some tid) :
    (timerWake w tid editOk).edits = w.edits ∧
    (timerWake w tid editOk).timers = w.timers ∧
    (timerWake w tid editOk).sessions = w.sessions ∧
    (timerWake w tid editOk).softDeletes = w.softDeletes := by
  by_cases hc : task.cancelRequested = true
  · exact timerWake_cancelled_noop w tid editOk ⟨task, htask, hc⟩
  · simp [timerWake, htask, hc, h, markDone_edits, markDone_timers,
      markDone_sessions, markDone_softDeletes]

lemma timerWake_nextId (w : World) (tid : Nat) (editOk : Bool) :
    (timerWake w tid editOk).nextId = w.nextId := by
  cases htask : w.tasks tid with
  | none => simp [timerWake, htask]
  | some task =>
    by_cases hc : task.cancelRequested = true
    · simp [timerWake, htask, hc, markDone_nextId]
    · by_cases hr : w.timers task.user = some tid
      · simp [timerWake, htask, hc, hr, markDone_nextId]
      · simp [timerWake, htask, hc, hr, markDone_nextId]

lemma timerWake_keeps_cancel (w : World) (tid2 tid : Nat) (editOk : Bool)
    (h : cancelledAt w tid) : cancelledAt (timerWake w tid2 editOk) tid := by
  cases htask : w.tasks tid2 with
  | none => simpa [timerWake, htask] using h
  | some task =>
    by_cases hc : task.cancelRequested = true
    · simpa [timerWake, htask, hc] using markDone_keeps_cancel w tid2 tid h
    · by_cases hr : w.timers task.user = some tid2
      · obtain ⟨t3, ht3, hc3⟩ := h
        have heq : timerWake w tid2 editOk =
            markDone
              { w with
                timers := fun v => if v = task.user then none else w.timers v,
                edits := tryEditMessage w.edits
                  { chatId := task.chatId, msgId := task.msgId,
                    status := EditStatus.expired, controls := false } editOk }
              tid2 := by
          simp [timerWake, htask, hc, hr]
        rw [heq]
        exact markDone_keeps_cancel _ tid2 tid ⟨t3, ht3, hc3⟩
      · simpa [timerWake, htask, hc, hr] using markDone_keeps_cancel w tid2 tid h

lemma finalizeEditSession_nextId (w : World) (u : Nat) :
    (finalizeEditSession w u).nextId = w.nextId := by
  simp [finalizeEditSession, cancelTimeoutTask_nextId]

lemma finalizeEditSession_keeps_cancel (w : World) (u tid : Nat)
    (h : cancelledAt w tid) : cancelledAt (finalizeEditSession w u) tid :=
  cancelTimeoutTask_keeps_cancel w u tid h

lemma onSavedEdit_nextId (w : World) (u mealId : Nat) (now newChat : Int)
    (newMsg : Nat) (oldEditOk : Bool) :
    (onSavedEdit w u mealId now newChat newMsg oldEditOk).nextId = w.nextId + 2 := by
  simp [onSavedEdit, startTimeoutTask_nextId, cancelTimeoutTask_nextId,
    supersedePrompt_nextId]

lemma onSavedEdit_keeps_cancel (w : World) (u mealId : Nat) (now newChat : Int)
    (newMsg tid : Nat) (oldEditOk : Bool) (hlt : tid < w.nextId)
    (h : cancelledAt w tid) :
    cancelledAt (onSavedEdit w u mealId now newChat newMsg oldEditOk) tid := by
  simp only [onSavedEdit]
  refine startTimeoutTask_keeps_cancel _ _ _ _ _ _ ?_ ?_
  · simp only [cancelTimeoutTask_nextId, supersedePrompt_nextId]
    omega
  · obtain ⟨task, htask, hc⟩ :=
      cancelTimeoutTask_keeps_cancel (supersedePrompt w u oldEditOk) u tid
        (supersedePrompt_keeps_cancel w u oldEditOk tid h)
    exact ⟨task, htask, hc⟩

lemma onSavedEdit_sessions_self (w : World) (u mealId : Nat) (now newChat : Int)
    (newMsg : Nat) (oldEditOk : Bool) :
    (onSavedEdit w u mealId now newChat newMsg oldEditOk).sessions u =
      some { editMealId := mealId, promptChatId := newChat,
             promptMessageId := newMsg, sessionToken := w.nextId,
             deadline := now + EDIT_TIMEOUT } := by
  simp only [onSavedEdit]
  rw [startTimeoutTask_sessions]
  simp [cancelTimeoutTask_sessions, cancelTimeoutTask_nextId, supersedePrompt_nextId]

lemma onSavedEdit_timers_self (w : World) (u mealId : Nat) (now newChat : Int)
    (newMsg : Nat) (oldEditOk : Bool) :
    (onSavedEdit w u mealId now newChat newMsg oldEditOk).timers u =
      some (w.nextId + 1) := by
  simp only [onSavedEdit]
  rw [startTimeoutTask_timers_self]
  simp [cancelTimeoutTask_nextId, supersedePrompt_nextId]

lemma onSavedEdit_tasks_new (w : World) (u mealId : Nat) (now newChat : Int)
    (newMsg : Nat) (oldEditOk : Bool) :
    (onSavedEdit w u mealId now newChat newMsg oldEditOk).tasks (w.nextId + 1) =
      some { taskId := w.nextId + 1, user := u, chatId := newChat, msgId := newMsg,
             token := w.nextId, cancelRequested := false, taskDone := false } := by
  simp only [onSavedEdit, cancelTimeoutTask_nextId, supersedePrompt_nextId]
  exact startTimeoutTask_tasks_at _ u newChat newMsg w.nextId (w.nextId + 1)
    (by simp [cancelTimeoutTask_nextId, supersedePrompt_nextId])

lemma onSavedEdit_edits_some (w : World) (u mealId : Nat) (now newChat : Int)
    (newMsg : Nat) (old : EditSession) (hs : w.sessions u = some old) :
    (onSavedEdit w u mealId now newChat newMsg true).edits =
      w.edits ++ [{ chatId := old.promptChatId, msgId := old.promptMessageId,
                    status := EditStatus.replaced, controls := false }] := by
  simp only [onSavedEdit]
  rw [startTimeoutTask_edits]
  simp only [cancelTimeoutTask_edits]
  exact supersedePrompt_edits_some w u old hs

lemma onSavedEdit_edits_none (w : World) (u mealId : Nat) (now newChat : Int)
    (newMsg : Nat) (oldEditOk : Bool) (hs : w.sessions u = none) :
    (onSavedEdit w u mealId now newChat newMsg oldEditOk).edits = w.edits := by
  simp only [onSavedEdit]
  rw [startTimeoutTask_edits]
  simp only [cancelTimeoutTask_edits]
  exact supersedePrompt_edits_none w u oldEditOk hs

lemma onSavedEdit_cancels_old (w : World) (u mealId : Nat) (now newChat : Int)
    (newMsg : Nat) (oldEditOk : Bool) (tidOld : Nat) (task : TimerTask)
    (hreg : w.timers u = some tidOld) (htask : w.tasks tidOld = some task)
    (hlt : tidOld < w.nextId) :
    cancelledAt (onSavedEdit w u mealId now newChat newMsg oldEditOk) tidOld := by
  simp only [onSavedEdit]
  refine startTimeoutTask_keeps_cancel _ _ _ _ _ _ ?_ ?_
  · simp only [cancelTimeoutTask_nextId, supersedePrompt_nextId]
    omega
  · have hreg1 : (supersedePrompt w u oldEditOk).timers u = some tidOld := by
      rw [supersedePrompt_timers]; exact hreg
    have htask1 : (supersedePrompt w u oldEditOk).tasks tidOld = some task := by
      rw [supersedePrompt_tasks]; exact htask
    have h2 := cancelTimeoutTask_sets_cancel _ u tidOld task hreg1 htask1
    exact ⟨{ task with cancelRequested := true }, h2, rfl⟩

lemma finalizeEditSession_sessions_self (w : World) (u : Nat) :
    (finalizeEditSession w u).sessions u = none := by
  simp [finalizeEditSession]

lemma finalizeEditSession_timers_self (w : World) (u : Nat) :
    (finalizeEditSession w u).timers u = none := by
  simp [finalizeEditSession, cancelTimeoutTask_timers_self]

lemma finalizeEditSession_sets_cancel (w : World) (u tid : Nat) (task : TimerTask)
    (hreg : w.timers u = some tid) (htask : w.tasks tid = some task) :
    cancelledAt (finalizeEditSession w u) tid := by
  refine ⟨{ task with cancelRequested := true }, ?_, rfl⟩
  show (cancelTimeoutTask w u).tasks tid = _
  exact cancelTimeoutTask_sets_cancel w u tid task hreg htask

/-- With a nonempty text, the world `_handle_edit_text` leaves behind is
exactly the finalized one, whatever the validation verdicts were. -/
lemma handleEditText_world (w : World) (rl : RateLimiter) (u : Nat)
    (now : Int) (mealFound : Bool) (mealAgeSeconds : Int) (precheckOk : Bool) :
    (handleEditText w rl u now true mealFound mealAgeSeconds precheckOk).2.1 =
      finalizeEditSession w u := by
  by_cases hins : (w.sessions u).isSome
  · by_cases hmf : mealFound = false
    · simp [handleEditText, hins, hmf]
    · by_cases hage : editWindowHours * 3600 < mealAgeSeconds
      · simp [handleEditText, hins, hmf, hage]
      · simp [handleEditText, hins, hmf, hage, handleEditTextRest_world]
  · simp [handleEditText, hins, handleEditTextRest_world]

lemma actOnSession_keeps_cancel (w : World) (u token : Nat) (kind : ActKind)
    (editOk : Bool) (tid : Nat) (h : cancelledAt w tid) :
    cancelledAt (actOnSession w u token kind editOk).2 tid := by
  cases hs : w.sessions u with
  | none => simpa [actOnSession, hs] using h
  | some s =>
    by_cases ht : s.sessionToken ≠ token
    · simpa [actOnSession, hs, ht] using h
    · obtain ⟨task, htask, hc⟩ := cancelTimeoutTask_keeps_cancel w u tid h
      cases kind <;> simp [actOnSession, hs, ht] <;> exact ⟨task, htask, hc⟩

lemma actOnSession_nextId (w : World) (u token : Nat) (kind : ActKind)
    (editOk : Bool) :
    (actOnSession w u token kind editOk).2.nextId = w.nextId := by
  cases hs : w.sessions u with
  | none => simp [actOnSession, hs]
  | some s =>
    by_cases ht : s.sessionToken ≠ token
    · simp [actOnSession, hs, ht]
    · cases kind <;> simp [actOnSession, hs, ht, cancelTimeoutTask_nextId]

lemma handleEditText_keeps_cancel (w : World) (rl : RateLimiter) (u : Nat)
    (now : Int) (hasText mealFound : Bool) (mealAgeSeconds : Int)
    (precheckOk : Bool) (tid : Nat) (h : cancelledAt w tid) :
    cancelledAt
      (handleEditText w rl u now hasText mealFound mealAgeSeconds precheckOk).2.1
      tid := by
  by_cases hh : hasText = false
  · simpa [handleEditText, hh] using h
  · have hfin := finalizeEditSession_keeps_cancel w u tid h
    by_cases hins : (w.sessions u).isSome
    · by_cases hmf : mealFound = false
      · simpa [handleEditText, hh, hins, hmf] using hfin
      · by_cases hage : editWindowHours * 3600 < mealAgeSeconds
        · simpa [handleEditText, hh, hins, hmf, hage] using hfin
        · simpa [handleEditText, hh, hins, hmf, hage, handleEditTextRest_world]
            using hfin
    · simpa [handleEditText, hh, hins, handleEditTextRest_world] using hfin

lemma handleEditText_nextId (w : World) (rl : RateLimiter) (u : Nat)
    (now : Int) (hasText mealFound : Bool) (mealAgeSeconds : Int)
    (precheckOk : Bool) :
    (handleEditText w rl u now hasText mealFound mealAgeSeconds
      precheckOk).2.1.nextId = w.nextId := by
  by_cases hh : hasText = false
  · simp [handleEditText, hh]
  · by_cases hins : (w.sessions u).isSome
    · by_cases hmf : mealFound = false
      · simp [handleEditText, hh, hins, hmf, finalizeEditSession_nextId]
      · by_cases hage : editWindowHours * 3600 < mealAgeSeconds
        · simp [handleEditText, hh, hins, hmf, hage, finalizeEditSession_nextId]
        · simp [handleEditText, hh, hins, hmf, hage, handleEditTextRest_world,
            finalizeEditSession_nextId]
    · simp [handleEditText, hh, hins, handleEditTextRest_world,
        finalizeEditSession_nextId]

lemma applyOp_nextId_mono (w : World) (op : Op) :
    w.nextId ≤ (applyOp w op).nextId := by
  cases op with
  | savedEdit u mealId now newChat newMsg oldEditOk =>
    rw [applyOp, onSavedEdit_nextId]; omega
  | act u token kind editOk => rw [applyOp, actOnSession_nextId]
  | finalizeOp u => rw [applyOp, finalizeEditSession_nextId]
  | wake tid editOk => rw [applyOp, timerWake_nextId]
  | editText rl u now hasText mealFound mealAgeSeconds precheckOk =>
    rw [applyOp, handleEditText_nextId]

lemma applyOp_keeps_cancel (w : World) (op : Op) (tid : Nat)
    (hlt : tid < w.nextId) (h : cancelledAt w tid) :
    cancelledAt (applyOp w op) tid := by
  cases op with
  | savedEdit u mealId now newChat newMsg oldEditOk =>
    exact onSavedEdit_keeps_cancel w u mealId now newChat newMsg tid oldEditOk hlt h
  | act u token kind editOk => exact actOnSession_keeps_cancel w u token kind editOk tid h
  | finalizeOp u => exact finalizeEditSession_keeps_cancel w u tid h
  | wake tid2 editOk => exact timerWake_keeps_cancel w tid2 tid editOk h
  | editText rl u now hasText mealFound mealAgeSeconds precheckOk =>
    exact handleEditText_keeps_cancel w rl u now hasText mealFound mealAgeSeconds
      precheckOk tid h

lemma runOps_keeps_cancel (tid : Nat) :
    ∀ (ops : List Op) (w : World), tid < w.nextId → cancelledAt w tid →
      cancelledAt (runOps w ops) tid := by
  intro ops
  induction ops with
  | nil => intro w _ h; simpa [runOps] using h
  | cons op ops ih =>
    intro w hlt h
    rw [runOps]
    exact ih (applyOp w op)
      (lt_of_lt_of_le hlt (applyOp_nextId_mono w op))
      (applyOp_keeps_cancel w op tid hlt h)

/-! ### Cooperative scheduling at await granularity

The bot runs on a single asyncio event loop: a coroutine can lose control
only at an `await`.  Each handler or timer body is a list of micro
operations; the maximal runs that end at an `await` (or at the end of the
body) are the atomic segments the scheduler interleaves. -/

/-- The micro operations of `_timeout_coro` and `on_saved_edit` that
matter for the session/timer registries, in source order.  The `Await`
suffix marks the operations at which the coroutine yields control. -/
inductive MicroOp where
  | sleepAwait
  | identityCheck
  | popTimer
  | expiryEditAwait
  | getDataAwait
  | supersedeEditAwait
  | cancelOldTimer
  | sendPromptAwait
  | setStateAwait
  | updateDataAwait
  | installTimer
  | answerCbAwait
  deriving DecidableEq

def isAwait : MicroOp → Bool
  | MicroOp.sleepAwait => true
  | MicroOp.expiryEditAwait => true
  | MicroOp.getDataAwait => true
  | MicroOp.supersedeEditAwait => true
  | MicroOp.sendPromptAwait => true
  | MicroOp.setStateAwait => true
  | MicroOp.updateDataAwait => true
  | MicroOp.answerCbAwait => true
  | _ => false

/-- `_timeout_coro`: await the sleep; then (synchronously) compare
`_timeout_tasks.get(user_id)` with the current task and pop the registry
entry; then await the expiry message edit. -/
def timeoutCoroOps : List MicroOp :=
  [MicroOp.sleepAwait, MicroOp.identityCheck, MicroOp.popTimer,
   MicroOp.expiryEditAwait]

/-- `on_saved_edit` after its guards: await `state.get_data`, await the
supersede rewrite, cancel the old timer (sync), await sending the new
prompt, await `set_state` and `update_data`, then `start_timeout_task`
(sync: cancel again and install the new task), and finally await
`callback.answer`. -/
def onSavedEditOps : List MicroOp :=
  [MicroOp.getDataAwait, MicroOp.supersedeEditAwait, MicroOp.cancelOldTimer,
   MicroOp.sendPromptAwait, MicroOp.setStateAwait, MicroOp.updateDataAwait,
   MicroOp.cancelOldTimer, MicroOp.installTimer, MicroOp.answerCbAwait]

/-- Split a body into its atomic segments: a segment closes at each
await. -/
def segmentsAux (acc : List MicroOp) : List MicroOp → List (List MicroOp)
  | [] => if acc.isEmpty then [] else [acc.reverse]
  | op :: rest =>
    if isAwait op then (acc.reverse ++ [op]) :: segmentsAux [] rest
    else segmentsAux (op :: acc) rest

def segmentsOf (ops : List MicroOp) : List (List MicroOp) :=
  segmentsAux [] ops

/-- A cooperative schedule: an interleaving of the two coroutines' atomic
segments, each segment kept whole. -/
inductive Sched :
    List (List MicroOp) → List (List MicroOp) → List (List MicroOp) → Prop where
  | nil : Sched [] [] []
  | left {xs ys zs s} : Sched xs ys zs → Sched (s :: xs) ys (s :: zs)
  | right {xs ys zs s} : Sched xs ys zs → Sched xs (s :: ys) (s :: zs)

lemma Sched.mem_left {xs ys zs : List (List MicroOp)} (h : Sched xs ys zs)
    {s : List MicroOp} (hs : s ∈ xs) : s ∈ zs := by
  induction h with
  | nil => cases hs
  | left _ ih =>
    rcases List.mem_cons.mp hs with hs | hs
    · simp [hs]
    · simp [ih hs]
  | right _ ih => simp [ih hs]

lemma mem_join_split {s : List MicroOp} :
    ∀ {zs : List (List MicroOp)}, s ∈ zs →
      ∃ l1 l2, zs.flatten = l1 ++ s ++ l2 := by
  intro zs
  induction zs with
  | nil => intro h; cases h
  | cons z zs ih =>
    intro h
    rcases List.mem_cons.mp h with h | h
    · exact ⟨[], zs.flatten, by simp [h]⟩
    · obtain ⟨l1, l2, hl⟩ := ih h
      exact ⟨z ++ l1, l2, by simp [hl]⟩

lemma length_filter_lt (p : Int → Bool) (l : List Int) (a : Int)
    (ha : a ∈ l) (hpa : p a = false) : (l.filter p).length < l.length := by
  induction l with
  | nil => cases ha
  | cons b l ih =>
    rcases List.mem_cons.mp ha with h | h
    · subst h
      have h1 := List.length_filter_le p l
      simp [List.filter_cons, hpa]
      omega
    · by_cases hb : p b
      · have h1 := ih h
        simp [List.filter_cons, hb]
        omega
      · have h1 := ih h
        have h2 : p b = false := by simpa using hb
        simp [List.filter_cons, h2]
        omega

/-! ### Sample world used by the concrete witnesses -/

def sessionEx : EditSession :=
  { editMealId := 5, promptChatId := 100, promptMessageId := 200,
    sessionToken := 1, deadline := 300 }

def taskEx : TimerTask :=
  { taskId := 2, user := 42, chatId := 100, msgId := 200, token := 1,
    cancelRequested := false, taskDone := false }

def worldEx : World :=
  { sessions := fun v => if v = 42 then some sessionEx else none,
    timers := fun v => if v = 42 then some 2 else none,
    tasks := fun i => if i = 2 then some taskEx else none,
    edits := [], softDeletes := [], nextId := 3 }

lemma worldEx_wf : WF worldEx := by
  refine ⟨?_, ?_, ?_, ?_⟩
  · intro u tid h
    by_cases hu : u = 42
    · subst hu
      simp [worldEx] at h
      subst h
      exact ⟨taskEx, by simp [worldEx], rfl⟩
    · simp [worldEx, hu] at h
  · intro u tid h
    by_cases hu : u = 42
    · subst hu
      simp [worldEx] at h
      simp [worldEx]
      omega
    · simp [worldEx, hu] at h
  · intro tid task h
    by_cases ht : tid = 2
    · subst ht
      simp [worldEx]
    · simp [worldEx, ht] at h
  · intro u s h
    by_cases hu : u = 42
    · subst hu
      simp [worldEx] at h
      simp [worldEx, ← h, sessionEx]
    · simp [worldEx, hu] at h

/-! ### The claims -/

/-- C1: for every user `u`, the `ConcurrencyGuard` admits at most one slot
holder at any instant: `acquire(u)` returns not-acquired iff a slot is
already held for `u`; two `acquire(u)` calls with no intervening
`release(u)` (whatever other users do in between) never both succeed;
after `release(u)` a subsequent `acquire(u)` succeeds; and acquire/release
for `u` never changes whether any other user `v ≠ u` holds a slot. -/
theorem C1_concurrency_guard_exclusive (active : List Nat) (u : Nat) :
    ((acquire active u).1 = false ↔ u ∈ active) ∧
    (∀ ops : List GuardOp, (∀ op ∈ ops, op ≠ GuardOp.rel u) →
      (acquire active u).1 = true →
      (acquire (runGuard (acquire active u).2 ops) u).1 = false) ∧
    ((acquire (release active u) u).1 = true) ∧
    (∀ v, v ≠ u →
      ((v ∈ (acquire active u).2 ↔ v ∈ active) ∧
       (v ∈ release active u ↔ v ∈ active))) := by
  refine ⟨?_, ?_, ?_, ?_⟩
  · by_cases h : u ∈ active <;> simp [acquire, h]
  · intro ops hops hacq
    have hu : u ∉ active := by
      by_contra h
      simp [acquire, h] at hacq
    have hs : (acquire active u).2 = u :: active := by simp [acquire, hu]
    have hmem : u ∈ runGuard (acquire active u).2 ops := by
      rw [hs]
      exact runGuard_keeps_mem u ops (u :: active) (by simp) hops
    exact acquire_false_of_mem hmem
  · have h : u ∉ release active u := by simp [mem_release_iff]
    simp [acquire, h]
  · intro v hv
    constructor
    · by_cases h : u ∈ active
      · simp [acquire, h]
      · simp [acquire, h, hv]
    · simp [mem_release_iff, hv]

/-- Witness for C1 at user 7 with bystander 9. -/
theorem C1_concurrency_guard_exclusive_witness :
    (acquire (runGuard (acquire [] 7).2 [GuardOp.acq 9]) 7).1 = false ∧
    (acquire (release [7] 7) 7).1 = true ∧
    (9 ∈ release [7, 9] 7 ↔ 9 ∈ [7, 9]) :=
  ⟨(C1_concurrency_guard_exclusive [] 7).2.1 [GuardOp.acq 9] (by decide) (by decide),
   (C1_concurrency_guard_exclusive [7] 7).2.2.1,
   ((C1_concurrency_guard_exclusive [7, 9] 7).2.2.2 9 (by decide)).2⟩

/-- C2: for a user with quota `Q` over the 60-unit rolling window, `Q`
admitted calls within the window exhaust it, the `(Q+1)`-th call inside
the window is rejected, advancing past the window from the first admitted
timestamp frees an admission, and repeated calls at one instant admit
exactly one request per aged-out timestamp (`min n (Q - retained)`), never
a burst. -/
theorem C2_rate_limiter_window (Q u : Nat) (ts : List Int) (t0 t1 t2 : Int)
    (hlen : ts.length = Q) (hmem : t0 ∈ ts)
    (hbounds : ∀ s ∈ ts, t0 ≤ s ∧ s < t0 + 60)
    (ht1 : ∀ s ∈ ts, t1 - 60 < s)
    (ht2 : t0 + 60 ≤ t2) :
    (∀ b ∈ (runChecks { maxPerMinute := Q, windows := fun _ => [] } u ts).1,
      b = true) ∧
    (((runChecks { maxPerMinute := Q, windows := fun _ => [] } u ts).2).check
      u t1).1 = false ∧
    (((runChecks { maxPerMinute := Q, windows := fun _ => [] } u ts).2).check
      u t2).1 = true ∧
    (∀ (n : Nat) (t : Int),
      admitCountN (runChecks { maxPerMinute := Q, windows := fun _ => [] } u ts).2
          u t n =
        min n (Q - (pruneWindow t ts).length)) := by
  set rl0 : RateLimiter := { maxPerMinute := Q, windows := fun _ => [] } with hrl0
  have hpair : List.Pairwise (fun a b => b - 60 < a) ts := by
    refine List.pairwise_of_forall_mem_list ?_
    intro a ha b hb
    have h1 := (hbounds a ha).1
    have h2 := (hbounds b hb).2
    omega
  have hall := runChecks_all u ts rl0 (by simp [hrl0, hlen]) (by simp [hrl0]) hpair
  have hwin : ((runChecks rl0 u ts).2).windows u = ts := by
    have := hall.2.1
    simpa [hrl0] using this
  have hmax : ((runChecks rl0 u ts).2).maxPerMinute = Q := hall.2.2.1
  refine ⟨hall.1, ?_, ?_, ?_⟩
  · have hp : pruneWindow t1 (((runChecks rl0 u ts).2).windows u) = ts := by
      rw [hwin]
      exact pruneWindow_eq_self t1 ts ht1
    rw [check_reject _ u t1 (by rw [hp, hmax, hlen])]
  · have hlt : (pruneWindow t2 (((runChecks rl0 u ts).2).windows u)).length <
        ((runChecks rl0 u ts).2).maxPerMinute := by
      rw [hwin, hmax]
      have h1 : (pruneWindow t2 ts).length < ts.length := by
        refine length_filter_lt _ ts t0 hmem ?_
        simp only [decide_eq_false_iff_not, not_lt]
        omega
      omega
    rw [check_admits _ u t2 hlt]
  · intro n t
    rw [admitCountN_eq u t n, hwin, hmax]

/-- Witness for C2 with quota 3, calls at 0, 1, 2, a rejected call at 30
and an admitted call at 61. -/
theorem C2_rate_limiter_window_witness :
    (∀ b ∈ (runChecks { maxPerMinute := 3, windows := fun _ => [] } 0
      [0, 1, 2]).1, b = true) ∧
    (((runChecks { maxPerMinute := 3, windows := fun _ => [] } 0
      [0, 1, 2]).2).check 0 30).1 = false ∧
    (((runChecks { maxPerMinute := 3, windows := fun _ => [] } 0
      [0, 1, 2]).2).check 0 61).1 = true ∧
    (∀ (n : Nat) (t : Int),
      admitCountN (runChecks { maxPerMinute := 3, windows := fun _ => [] } 0
          [0, 1, 2]).2 0 t n =
        min n (3 - (pruneWindow t [0, 1, 2]).length)) :=
  C2_rate_limiter_window 3 0 [0, 1, 2] 0 30 61 (by decide) (by decide)
    (by decide) (by decide) (by decide)

/-- C3: the scoped acquisition wrapper releases the user's slot on every
exit path: when `acquire(u)` succeeded on entry, after the wrapped body
finishes — normally or by raising — `u` holds no slot, and a collaborator
failure raised inside propagates to the caller with the slot already
released; when not acquired the wrapper reports busy and leaves the slot
set unchanged. -/
theorem C3_scoped_release {ε α : Type} (active : List Nat) (u : Nat)
    (body : Except ε α) :
    ((acquire active u).1 = true → u ∉ (withSlot active u body).2) ∧
    (∀ e : ε, body = Except.error e → (acquire active u).1 = true →
      (withSlot active u body).1 = Except.error e ∧
      u ∉ (withSlot active u body).2) ∧
    ((acquire active u).1 = false →
      (withSlot active u body).1 = Except.ok none ∧
      (withSlot active u body).2 = active) := by
  by_cases h : u ∈ active
  · have ha : acquire active u = (false, active) := by simp [acquire, h]
    refine ⟨?_, ?_, ?_⟩ <;> simp [withSlot, ha]
  · have ha : acquire active u = (true, u :: active) := by simp [acquire, h]
    have hrel : u ∉ release (u :: active) u := by simp [mem_release_iff]
    cases body with
    | ok a => refine ⟨?_, ?_, ?_⟩ <;> simp [withSlot, ha, hrel]
    | error e => refine ⟨?_, ?_, ?_⟩ <;> simp [withSlot, ha, hrel]

/-- Witness for C3: a failing body under a free slot propagates the error
with the slot released. -/
theorem C3_scoped_release_witness :
    (withSlot ([] : List Nat) 3 (Except.error (5 : Nat) : Except Nat Nat)).1 =
      Except.error 5 ∧
    3 ∉ (withSlot ([] : List Nat) 3 (Except.error (5 : Nat) : Except Nat Nat)).2 := by
  have h := (C3_scoped_release ([] : List Nat) 3
    (Except.error (5 : Nat) : Except Nat Nat)).2.1 5 rfl (by decide)
  exact ⟨h.1, h.2⟩

/-- C8: a rejected `check(u)` records nothing — the retained window for
`u` changes only by pruning entries older than the trailing window — and
a check for `u` never alters any other user's window (nor the quota). -/
theorem C8_check_reject_frame (rl : RateLimiter) (u : Nat) (now : Int) :
    ((rl.check u now).1 = false →
      ((rl.check u now).2).windows u = pruneWindow now (rl.windows u)) ∧
    (∀ v, v ≠ u → ((rl.check u now).2).windows v = rl.windows v) ∧
    ((rl.check u now).2).maxPerMinute = rl.maxPerMinute := by
  by_cases h : rl.maxPerMinute ≤ (pruneWindow now (rl.windows u)).length
  · rw [check_reject rl u now h]
    exact ⟨fun _ => setWindow_same _ _ _, fun v hv => setWindow_other _ _ _ _ hv, rfl⟩
  · rw [check_admits rl u now (by omega)]
    refine ⟨?_, fun v hv => setWindow_other _ _ _ _ hv, rfl⟩
    intro hfalse
    simp at hfalse

/-- Witness for C8: a zero-quota limiter rejects and stores only the
pruned (empty) window; user 5 is untouched. -/
theorem C8_check_reject_frame_witness :
    ((({ maxPerMinute := 0, windows := fun _ => [] } : RateLimiter).check 3 10).2).windows 3 =
      pruneWindow 10 (({ maxPerMinute := 0, windows := fun _ => [] } : RateLimiter).windows 3) ∧
    ((({ maxPerMinute := 0, windows := fun _ => [] } : RateLimiter).check 3 10).2).windows 5 =
      ({ maxPerMinute := 0, windows := fun _ => [] } : RateLimiter).windows 5 := by
  have h := C8_check_reject_frame
    { maxPerMinute := 0, windows := fun _ => [] } 3 10
  exact ⟨h.1 (by decide), h.2.1 5 (by decide)⟩

/-- C4: starting an edit session supersedes any previous one: the new FSM
data holds the target meal, the new prompt reference, a freshly generated
token (distinct from every token already stored) and
`deadline = now + EDIT_TIMEOUT`; a new timer task carrying that token is
registered for the user; when an old session existed its prompt is
rewritten to the replaced status with no controls (failure swallowed); any
previously registered timer has its cancellation requested and can never
perform its expiry rewrite, whatever operations run afterwards; with no
previous session the same installation happens with a no-op supersede. -/
theorem C4_start_session_supersedes (w : World) (hwf : WF w) (u mealId : Nat)
    (now newChat : Int) (newMsg : Nat) (oldEditOk : Bool) :
    ((onSavedEdit w u mealId now newChat newMsg oldEditOk).sessions u =
      some { editMealId := mealId, promptChatId := newChat,
             promptMessageId := newMsg, sessionToken := w.nextId,
             deadline := now + EDIT_TIMEOUT }) ∧
    (∀ v sv, w.sessions v = some sv → sv.sessionToken ≠ w.nextId) ∧
    ((onSavedEdit w u mealId now newChat newMsg oldEditOk).timers u =
      some (w.nextId + 1)) ∧
    ((onSavedEdit w u mealId now newChat newMsg oldEditOk).tasks (w.nextId + 1) =
      some { taskId := w.nextId + 1, user := u, chatId := newChat,
             msgId := newMsg, token := w.nextId, cancelRequested := false,
             taskDone := false }) ∧
    (∀ old, w.sessions u = some old →
      (onSavedEdit w u mealId now newChat newMsg true).edits =
        w.edits ++ [{ chatId := old.promptChatId, msgId := old.promptMessageId,
                      status := EditStatus.replaced, controls := false }]) ∧
    (∀ tidOld, w.timers u = some tidOld →
      cancelledAt (onSavedEdit w u mealId now newChat newMsg oldEditOk) tidOld ∧
      ∀ (ops : List Op) (editOk2 : Bool),
        (timerWake
          (runOps (onSavedEdit w u mealId now newChat newMsg oldEditOk) ops)
          tidOld editOk2).edits =
        (runOps (onSavedEdit w u mealId now newChat newMsg oldEditOk) ops).edits) ∧
    (w.sessions u = none →
      (onSavedEdit w u mealId now newChat newMsg oldEditOk).edits = w.edits) := by
  refine ⟨onSavedEdit_sessions_self w u mealId now newChat newMsg oldEditOk,
    ?_,
    onSavedEdit_timers_self w u mealId now newChat newMsg oldEditOk,
    onSavedEdit_tasks_new w u mealId now newChat newMsg oldEditOk,
    ?_, ?_, ?_⟩
  · intro v sv hsv
    have := hwf.tokenLt v sv hsv
    omega
  · intro old hs
    exact onSavedEdit_edits_some w u mealId now newChat newMsg old hs
  · intro tidOld hreg
    obtain ⟨task, htask, _⟩ := hwf.timerTask u tidOld hreg
    have hlt := hwf.timerLt u tidOld hreg
    have hcancel := onSavedEdit_cancels_old w u mealId now newChat newMsg
      oldEditOk tidOld task hreg htask hlt
    refine ⟨hcancel, ?_⟩
    intro ops editOk2
    have hlt2 : tidOld <
        (onSavedEdit w u mealId now newChat newMsg oldEditOk).nextId := by
      rw [onSavedEdit_nextId]; omega
    exact (timerWake_cancelled_noop _ tidOld editOk2
      (runOps_keeps_cancel tidOld ops _ hlt2 hcancel)).1
  · exact onSavedEdit_edits_none w u mealId now newChat newMsg oldEditOk

/-- Witness for C4 on the sample world (user 42 already has a session and
a running timer). -/
theorem C4_start_session_supersedes_witness :
    ((onSavedEdit worldEx 42 7 1000 555 777 true).sessions 42 =
      some { editMealId := 7, promptChatId := 555, promptMessageId := 777,
             sessionToken := worldEx.nextId,
             deadline := 1000 + EDIT_TIMEOUT }) ∧
    (∀ v sv, worldEx.sessions v = some sv → sv.sessionToken ≠ worldEx.nextId) ∧
    ((onSavedEdit worldEx 42 7 1000 555 777 true).timers 42 =
      some (worldEx.nextId + 1)) ∧
    ((onSavedEdit worldEx 42 7 1000 555 777 true).tasks (worldEx.nextId + 1) =
      some { taskId := worldEx.nextId + 1, user := 42, chatId := 555,
             msgId := 777, token := worldEx.nextId, cancelRequested := false,
             taskDone := false }) ∧
    (∀ old, worldEx.sessions 42 = some old →
      (onSavedEdit worldEx 42 7 1000 555 777 true).edits =
        worldEx.edits ++
          [{ chatId := old.promptChatId, msgId := old.promptMessageId,
             status := EditStatus.replaced, controls := false }]) ∧
    (∀ tidOld, worldEx.timers 42 = some tidOld →
      cancelledAt (onSavedEdit worldEx 42 7 1000 555 777 true) tidOld ∧
      ∀ (ops : List Op) (editOk2 : Bool),
        (timerWake (runOps (onSavedEdit worldEx 42 7 1000 555 777 true) ops)
          tidOld editOk2).edits =
        (runOps (onSavedEdit worldEx 42 7 1000 555 777 true) ops).edits) ∧
    (worldEx.sessions 42 = none →
      (onSavedEdit worldEx 42 7 1000 555 777 true).edits = worldEx.edits) :=
  C4_start_session_supersedes worldEx worldEx_wf 42 7 1000 555 777 true

/-- C5: `act(u, token, kind)` with no session registered for `u`, or with
a token differing from the registered session's, returns Stale and
performs no mutation at all — the world (sessions, timers, tasks,
soft-delete log, transport log) is returned unchanged. -/
theorem C5_stale_act_no_mutation (w : World) (u token : Nat) (kind : ActKind)
    (editOk : Bool)
    (h : w.sessions u = none ∨
      ∃ s, w.sessions u = some s ∧ s.sessionToken ≠ token) :
    actOnSession w u token kind editOk = (ActResult.stale, w) := by
  rcases h with h | ⟨s, hs, hne⟩
  · simp [actOnSession, h]
  · simp [actOnSession, hs, hne]

/-- Witness for C5: a mismatched token on the sample world changes
nothing. -/
theorem C5_stale_act_no_mutation_witness :
    actOnSession worldEx 42 999 ActKind.delete true = (ActResult.stale, worldEx) :=
  C5_stale_act_no_mutation worldEx 42 999 ActKind.delete true
    (Or.inr ⟨sessionEx, rfl, by decide⟩)

/-- C6: a timer whose cancellation is requested before its deadline (by an
act, a finalize, or a supersession — all of which go through
`cancel_timeout_task`) never performs its expiry mutation: whatever
operations run between the cancellation and the moment the sleeping
coroutine wakes, the wake leaves the transport log, the timer registry and
the sessions untouched — the cancellation is observed either at the sleep
or by the post-wake identity check. -/
theorem C6_cancelled_timer_never_fires (w : World) (hwf : WF w) (u tid : Nat)
    (hreg : w.timers u = some tid) (ops : List Op) (editOk : Bool) :
    (timerWake (runOps (cancelTimeoutTask w u) ops) tid editOk).edits =
      (runOps (cancelTimeoutTask w u) ops).edits ∧
    (timerWake (runOps (cancelTimeoutTask w u) ops) tid editOk).timers =
      (runOps (cancelTimeoutTask w u) ops).timers ∧
    (timerWake (runOps (cancelTimeoutTask w u) ops) tid editOk).sessions =
      (runOps (cancelTimeoutTask w u) ops).sessions := by
  obtain ⟨task, htask, _⟩ := hwf.timerTask u tid hreg
  have hlt := hwf.timerLt u tid hreg
  have hc : cancelledAt (cancelTimeoutTask w u) tid :=
    ⟨{ task with cancelRequested := true },
      cancelTimeoutTask_sets_cancel w u tid task hreg htask, rfl⟩
  have hlt2 : tid < (cancelTimeoutTask w u).nextId := by
    rw [cancelTimeoutTask_nextId]; exact hlt
  have h := timerWake_cancelled_noop _ tid editOk
    (runOps_keeps_cancel tid ops _ hlt2 hc)
  exact ⟨h.1, h.2.1, h.2.2.1⟩

/-- Witness for C6: cancel user 42's timer, then start a new session for
the same user; the old task's wake mutates nothing. -/
theorem C6_cancelled_timer_never_fires_witness :
    (timerWake (runOps (cancelTimeoutTask worldEx 42)
      [Op.savedEdit 42 7 1000 555 777 true]) 2 true).edits =
      (runOps (cancelTimeoutTask worldEx 42)
        [Op.savedEdit 42 7 1000 555 777 true]).edits ∧
    (timerWake (runOps (cancelTimeoutTask worldEx 42)
      [Op.savedEdit 42 7 1000 555 777 true]) 2 true).timers =
      (runOps (cancelTimeoutTask worldEx 42)
        [Op.savedEdit 42 7 1000 555 777 true]).timers ∧
    (timerWake (runOps (cancelTimeoutTask worldEx 42)
      [Op.savedEdit 42 7 1000 555 777 true]) 2 true).sessions =
      (runOps (cancelTimeoutTask worldEx 42)
        [Op.savedEdit 42 7 1000 555 777 true]).sessions :=
  C6_cancelled_timer_never_fires worldEx worldEx_wf 42 2 rfl
    [Op.savedEdit 42 7 1000 555 777 true] true

/-- C7 counterexample: on the sample world the timer for user 42 fires
with its identity check passing; it removes the timer-registry entry but
the user's edit-session (FSM) entry is still present afterwards, so "the
registry no longer contains user u" fails for the session registry —
`_timeout_coro` has no access to the FSM context and never clears it. -/
theorem C7_timer_expiry_counterexample :
    (timerWake worldEx 2 true).timers 42 = none ∧
    ¬ (timerWake worldEx 2 true).sessions 42 = none := by
  constructor
  · decide
  · decide

/-- C7 (amended): when the timer fires and its post-wake self-check
confirms it is still the registered task for user `u`, it removes `u`'s
entry from the **timer** registry and rewrites the prompt to the expired
status with no controls; a transport failure during the rewrite is caught
and never propagated, and the timer-registry removal completes regardless
of the rewrite's outcome — but the user's FSM edit-session entry is not
removed by the timer. -/
theorem C7_timer_expiry_amended (w : World) (tid : Nat) (task : TimerTask)
    (htask : w.tasks tid = some task) (hc : task.cancelRequested = false)
    (hreg : w.timers task.user = some tid) (editOk : Bool) :
    (timerWake w tid editOk).timers task.user = none ∧
    (editOk = true → (timerWake w tid editOk).edits =
      w.edits ++ [{ chatId := task.chatId, msgId := task.msgId,
                    status := EditStatus.expired, controls := false }]) ∧
    (editOk = false → (timerWake w tid editOk).edits = w.edits) ∧
    (timerWake w tid editOk).sessions = w.sessions := by
  have heq : timerWake w tid editOk =
      markDone
        { w with
          timers := fun v => if v = task.user then none else w.timers v,
          edits := tryEditMessage w.edits
            { chatId := task.chatId, msgId := task.msgId,
              status := EditStatus.expired, controls := false } editOk }
        tid := by
    simp [timerWake, htask, hc, hreg]
  rw [heq]
  refine ⟨?_, ?_, ?_, ?_⟩
  · rw [markDone_timers]
    simp
  · intro hok
    rw [markDone_edits]
    simp [tryEditMessage, hok]
  · intro hfail
    rw [markDone_edits]
    simp [tryEditMessage, hfail]
  · rw [markDone_sessions]

/-- Witness for the amended C7 on the sample world. -/
theorem C7_timer_expiry_amended_witness :
    (timerWake worldEx 2 true).timers taskEx.user = none ∧
    (true = true → (timerWake worldEx 2 true).edits =
      worldEx.edits ++ [{ chatId := taskEx.chatId, msgId := taskEx.msgId,
                          status := EditStatus.expired, controls := false }]) ∧
    (true = false → (timerWake worldEx 2 true).edits = worldEx.edits) ∧
    (timerWake worldEx 2 true).sessions = worldEx.sessions :=
  C7_timer_expiry_amended worldEx 2 taskEx rfl rfl rfl true

/-- C9: under the event loop's cooperative scheduling, where control moves
only at awaits, any interleaving of the timer body with the start-session
handler keeps the timer's post-wake identity check immediately adjacent to
its registry pop (no handler operation — in particular no registry
install — can fall between them), and the start handler's own
cancel-and-install of the registry runs inside a single await-free
segment. -/
theorem C9_registry_mutation_atomic (sched : List (List MicroOp))
    (h : Sched (segmentsOf timeoutCoroOps) (segmentsOf onSavedEditOps) sched) :
    (∃ l1 l2, sched.flatten =
      l1 ++ [MicroOp.identityCheck, MicroOp.popTimer] ++ l2) ∧
    [MicroOp.identityCheck, MicroOp.popTimer, MicroOp.expiryEditAwait] ∈
      segmentsOf timeoutCoroOps ∧
    [MicroOp.cancelOldTimer, MicroOp.installTimer, MicroOp.answerCbAwait] ∈
      segmentsOf onSavedEditOps := by
  refine ⟨?_, by decide, by decide⟩
  have hseg : [MicroOp.identityCheck, MicroOp.popTimer,
      MicroOp.expiryEditAwait] ∈ segmentsOf timeoutCoroOps := by decide
  obtain ⟨l1, l2, hl⟩ := mem_join_split (h.mem_left hseg)
  refine ⟨l1, MicroOp.expiryEditAwait :: l2, ?_⟩
  simpa [List.append_assoc] using hl

/-- Witness for C9: the schedule that runs the timer segments first and
the handler segments after. -/
theorem C9_registry_mutation_atomic_witness :
    (∃ l1 l2,
      (segmentsOf timeoutCoroOps ++ segmentsOf onSavedEditOps).flatten =
        l1 ++ [MicroOp.identityCheck, MicroOp.popTimer] ++ l2) ∧
    [MicroOp.identityCheck, MicroOp.popTimer, MicroOp.expiryEditAwait] ∈
      segmentsOf timeoutCoroOps ∧
    [MicroOp.cancelOldTimer, MicroOp.installTimer, MicroOp.answerCbAwait] ∈
      segmentsOf onSavedEditOps :=
  C9_registry_mutation_atomic
    (segmentsOf timeoutCoroOps ++ segmentsOf onSavedEditOps)
    (Sched.left (Sched.left (Sched.right (Sched.right (Sched.right
      (Sched.right (Sched.right (Sched.right Sched.nil))))))))

/-- C10: a text received while the user's edit session awaits correction
first cancels the timeout task and clears the FSM state — before the meal
lookup, the edit-window recheck, the precheck and the rate limit — so
whatever those verdicts are, afterwards no session or timer remains
registered for the user, the former timer can never perform its expiry
rewrite, and acting on the old session returns Stale (a rejected
correction cannot be retried within the same session). -/
theorem C10_edit_text_clears_session_first (w : World) (hwf : WF w)
    (rl : RateLimiter) (u : Nat) (now : Int) (s : EditSession)
    (_hs : w.sessions u = some s) (mealFound : Bool) (mealAgeSeconds : Int)
    (precheckOk : Bool) :
    (handleEditText w rl u now true mealFound mealAgeSeconds
      precheckOk).2.1.sessions u = none ∧
    (handleEditText w rl u now true mealFound mealAgeSeconds
      precheckOk).2.1.timers u = none ∧
    (∀ tid, w.timers u = some tid →
      cancelledAt (handleEditText w rl u now true mealFound mealAgeSeconds
        precheckOk).2.1 tid ∧
      ∀ (ops : List Op) (editOk : Bool),
        (timerWake (runOps (handleEditText w rl u now true mealFound
          mealAgeSeconds precheckOk).2.1 ops) tid editOk).edits =
        (runOps (handleEditText w rl u now true mealFound mealAgeSeconds
          precheckOk).2.1 ops).edits) ∧
    (∀ (token : Nat) (kind : ActKind) (editOk : Bool),
      (actOnSession (handleEditText w rl u now true mealFound mealAgeSeconds
        precheckOk).2.1 u token kind editOk).1 = ActResult.stale) := by
  rw [handleEditText_world]
  refine ⟨finalizeEditSession_sessions_self w u,
    finalizeEditSession_timers_self w u, ?_, ?_⟩
  · intro tid hreg
    obtain ⟨task, htask, _⟩ := hwf.timerTask u tid hreg
    have hlt := hwf.timerLt u tid hreg
    have hc := finalizeEditSession_sets_cancel w u tid task hreg htask
    refine ⟨hc, ?_⟩
    intro ops editOk
    have hlt2 : tid < (finalizeEditSession w u).nextId := by
      rw [finalizeEditSession_nextId]; exact hlt
    exact (timerWake_cancelled_noop _ tid editOk
      (runOps_keeps_cancel tid ops _ hlt2 hc)).1
  · intro token kind editOk
    simp [actOnSession, finalizeEditSession_sessions_self w u]

/-- Witness for C10 on the sample world: user 42's session is awaiting
correction; after the handler runs (here with a not-found meal) nothing
remains registered. -/
theorem C10_edit_text_clears_session_first_witness :
    (handleEditText worldEx { maxPerMinute := 6, windows := fun _ => [] }
      42 0 true false 0 true).2.1.sessions 42 = none ∧
    (handleEditText worldEx { maxPerMinute := 6, windows := fun _ => [] }
      42 0 true false 0 true).2.1.timers 42 = none ∧
    (∀ tid, worldEx.timers 42 = some tid →
      cancelledAt (handleEditText worldEx
        { maxPerMinute := 6, windows := fun _ => [] }
        42 0 true false 0 true).2.1 tid ∧
      ∀ (ops : List Op) (editOk : Bool),
        (timerWake (runOps (handleEditText worldEx
          { maxPerMinute := 6, windows := fun _ => [] }
          42 0 true false 0 true).2.1 ops) tid editOk).edits =
        (runOps (handleEditText worldEx
          { maxPerMinute := 6, windows := fun _ => [] }
          42 0 true false 0 true).2.1 ops).edits) ∧
    (∀ (token : Nat) (kind : ActKind) (editOk : Bool),
      (actOnSession (handleEditText worldEx
        { maxPerMinute := 6, windows := fun _ => [] }
        42 0 true false 0 true).2.1 42 token kind editOk).1 =
        ActResult.stale) :=
  C10_edit_text_clears_session_first worldEx worldEx_wf
    { maxPerMinute := 6, windows := fun _ => [] } 42 0 sessionEx rfl false 0 true

end TgBot
